import Mathlib

set_option linter.unusedVariables false
set_option linter.unreachableTactic false
set_option linter.unusedTactic false

/-! Shallow embedding of `src/rds_app.py` (class `RDSApp`), a MySQL-backed
data-access layer.  Tables are lists of row structures; a connection is a
pair of committed/working database states (autocommit is disabled in
`RDSApp.__init__`, so statements act on the working state until an explicit
commit); each public method becomes a function from the persistent database
state to an `Outcome` carrying the returned value (or the re-raised error),
the persistent state after the call, and the trace of driver-level events
(connect / execute / commit / rollback / close).  SQL statement texts are
kept as the source's strings (whitespace normalised to one line), and bound
parameters are carried separately, as pymysql does. -/

/-- A value bound as a statement parameter (a pymysql placeholder value). -/
inductive Value where
  | s (v : String)
  | i (v : Int)
  | b (v : Bool)
deriving Repr, DecidableEq

/-- Driver-level events observable during one call. -/
inductive Event where
  | connect (autocommit : Bool)
  | execute (text : String) (params : List Value)
  | commit
  | rollback
  | close
deriving Repr, DecidableEq

/-- Errors raised by statement execution or by the seed loader:
`integrityDuplicate` models `pymysql.IntegrityError` with a message
containing "Duplicate entry", `integrityFK` any other integrity error
(foreign-key violation), `fileNotFound` Python's `FileNotFoundError`. -/
inductive DBError where
  | integrityDuplicate (key : String)
  | integrityFK (key : String)
  | fileNotFound (filename : String)
deriving Repr, DecidableEq

/-- A row of the `users` table (`created_at` is server-assigned and not
touched by any claim, so it is omitted from the row model). -/
structure UserRow where
  user_id : String
  email : String
  first_name : String
  last_name : String
deriving Repr, DecidableEq

/-- A row of the `activity` table; `login_time` is a MySQL timestamp kept
as its string rendering (lexicographic order on "YYYY-MM-DD HH:MM:SS"
strings coincides with chronological order). -/
structure ActivityRow where
  activity_id : Nat
  user_id : String
  login_time : String
  login_count : Int
deriving Repr, DecidableEq

/-- A row of the `preferences` table. -/
structure PrefRow where
  user_id : String
  theme : String
  notifications : Bool
deriving Repr, DecidableEq

/-- The persistent database state: the three tables created by
`RDSApp.setup_tables`, rows in insertion order. -/
structure DB where
  users : List UserRow
  activity : List ActivityRow
  prefs : List PrefRow
deriving Repr, DecidableEq

/-- A live pymysql connection with autocommit disabled: `committed` is the
durable state, `working` the state seen by statements on this connection;
`commit` makes `working` durable, `rollback` (and closing without a commit)
discards it. -/
structure Conn where
  committed : DB
  working : DB
deriving Repr, DecidableEq

/-- A freshly opened connection over persistent state `db`. -/
def Conn.fresh (db : DB) : Conn := ⟨db, db⟩

/-- The `autocommit` entry of `self.connection_params` set in
`RDSApp.__init__` (explicit transaction control). -/
def connection_params_autocommit : Bool := false

deriving instance DecidableEq for Except

/-- The observable outcome of one public method call: returned value or
re-raised error, the persistent database afterwards, and the event trace. -/
structure Outcome (α : Type) where
  result : Except DBError α
  db : DB
  trace : List Event
deriving Repr, DecidableEq

/-- A `with self.get_connection() as conn:` body: from the live connection
it produces the returned value or the raised error, the final connection
state, and the events it executed. -/
abbrev Body (α : Type) : Type := Conn → Except DBError α × Conn × List Event

/-- `RDSApp.get_connection` (the `@contextmanager`): opens one connection
with the parameters from `__init__`, yields it to the body; if the body
raises, rolls the connection back and re-raises the same error; in all
cases closes the connection (`finally`).  Closing with autocommit disabled
discards uncommitted work, so the persistent state afterwards is the
connection's committed state. -/
def get_connection {α : Type} (db : DB) (body : Body α) : Outcome α :=
  match body (Conn.fresh db) with
  | (Except.ok a, c2, tr) =>
      ⟨Except.ok a, c2.committed,
        Event.connect connection_params_autocommit :: tr ++ [Event.close]⟩
  | (Except.error e, c2, tr) =>
      ⟨Except.error e, c2.committed,
        Event.connect connection_params_autocommit :: tr ++ [Event.rollback, Event.close]⟩

/-- The texts picked out of the `execute` events of a trace (what SQL was
sent to the engine, in order). -/
def execTexts (tr : List Event) : List String :=
  tr.filterMap fun e =>
    match e with
    | Event.execute t _ => some t
    | _ => none

/-- Whether an event opens a connection. -/
def isConnectEvent : Event → Bool
  | Event.connect _ => true
  | _ => false

/-! ## Statement semantics (the engine side of each statement the app issues) -/

/-- `INSERT INTO users ...`: fails with a duplicate-entry integrity error if
`user_id` (primary key) or `email` (unique) already exists. -/
def insertUser (u : UserRow) (db : DB) : Except DBError DB :=
  if db.users.any fun x => x.user_id == u.user_id || x.email == u.email then
    Except.error (DBError.integrityDuplicate u.user_id)
  else
    Except.ok { db with users := db.users ++ [u] }

/-- `INSERT INTO preferences ...`: fails on a duplicate `user_id` (primary
key) or when the foreign key to `users` is violated. -/
def insertPref (p : PrefRow) (db : DB) : Except DBError DB :=
  if db.prefs.any fun x => x.user_id == p.user_id then
    Except.error (DBError.integrityDuplicate p.user_id)
  else if db.users.any fun x => x.user_id == p.user_id then
    Except.ok { db with prefs := db.prefs ++ [p] }
  else
    Except.error (DBError.integrityFK p.user_id)

/-- A seed record for the `activity` table (no `activity_id`: that column
is `AUTO_INCREMENT`). -/
structure SeedActivity where
  user_id : String
  login_time : String
  login_count : Int
deriving Repr, DecidableEq

/-- The next `AUTO_INCREMENT` value of the `activity` table. -/
def nextActivityId (db : DB) : Nat :=
  (db.activity.foldl (fun m a => max m a.activity_id) 0) + 1

/-- `INSERT INTO activity ...`: assigns the auto-increment id, fails when
the foreign key to `users` is violated. -/
def insertActivity (s : SeedActivity) (db : DB) : Except DBError DB :=
  if db.users.any fun x => x.user_id == s.user_id then
    Except.ok { db with
      activity := db.activity ++ [⟨nextActivityId db, s.user_id, s.login_time, s.login_count⟩] }
  else
    Except.error (DBError.integrityFK s.user_id)

/-- `SELECT ... FROM users WHERE user_id = %s` followed by `fetchone()`. -/
def findUser (db : DB) (uid : String) : Option UserRow :=
  db.users.find? fun u => u.user_id == uid

/-- The `preferences` row for a user, if any. -/
def findPref (db : DB) (uid : String) : Option PrefRow :=
  db.prefs.find? fun p => p.user_id == uid

/-! ## LIKE pattern matching (MySQL `LIKE`): `%` matches any sequence,
`_` matches exactly one character.  Defined with an explicit fuel argument
so that the recursion is structural and concrete instances evaluate in the
kernel; `likeM` supplies sufficient fuel. -/

/-- Fueled LIKE matcher over character lists (pattern, then text). -/
def likeF : Nat → List Char → List Char → Bool
  | 0, _, _ => false
  | f + 1, p, ts =>
    match p with
    | [] => ts.isEmpty
    | c :: ps =>
      if c = '%' then
        match ts with
        | [] => likeF f ps []
        | _ :: ts2 => likeF f ps ts || likeF f (c :: ps) ts2
      else
        match ts with
        | [] => false
        | t :: ts2 => (if c = '_' then true else c == t) && likeF f ps ts2

/-- MySQL `LIKE` over character lists: every recursive call of `likeF`
strictly decreases `p.length + ts.length`, so this fuel always suffices. -/
def likeM (p ts : List Char) : Bool :=
  likeF (p.length + ts.length + 1) p ts

/-- Whether `p` occurs at the start of `s` (character lists). -/
def pfx : List Char → List Char → Bool
  | [], _ => true
  | _ :: _, [] => false
  | a :: as2, b :: bs => a == b && pfx as2 bs

/-- Whether `p` occurs as a contiguous run inside `s` (literal substring
containment over character lists). -/
def subl : List Char → List Char → Bool
  | p, [] => pfx p []
  | p, b :: s2 => pfx p (b :: s2) || subl p s2

/-! ## SQL statement texts (from `src/rds_app.py`, whitespace normalised) -/

def usersInsertSQL : String :=
  "INSERT INTO users (user_id, email, first_name, last_name) VALUES (%s, %s, %s, %s)"

def prefsInsertSQL : String :=
  "INSERT INTO preferences (user_id, theme, notifications) VALUES (%s, %s, %s)"

def getUserSQL : String :=
  "SELECT user_id, email, first_name, last_name, created_at FROM users WHERE user_id = %s"

def userPrefsJoinSQL : String :=
  "SELECT u.user_id, u.email, u.first_name, u.last_name, p.theme, p.notifications FROM users u LEFT JOIN preferences p ON u.user_id = p.user_id WHERE u.user_id = %s"

def activityBaseSQL : String :=
  "SELECT activity_id, user_id, login_time, login_count FROM activity WHERE user_id = %s"

def lowerClauseSQL : String := " AND login_time >= %s"

def upperClauseSQL : String := " AND login_time <= %s"

def orderClauseSQL : String := " ORDER BY login_time ASC"

def updateLoginSQL : String :=
  "UPDATE activity SET login_count = login_count + %s WHERE user_id = %s AND activity_id = %s"

def searchSQL : String :=
  "SELECT user_id, email, first_name, last_name FROM users WHERE email LIKE %s"

def seedUsersSQL : String :=
  "INSERT INTO users (user_id, email, first_name, last_name) VALUES (%(user_id)s, %(email)s, %(first_name)s, %(last_name)s)"

def seedActivitySQL : String :=
  "INSERT INTO activity (user_id, login_time, login_count) VALUES (%(user_id)s, %(login_time)s, %(login_count)s)"

def seedPrefsSQL : String :=
  "INSERT INTO preferences (user_id, theme, notifications) VALUES (%(user_id)s, %(theme)s, %(notifications)s)"

/-- The batch SELECT text: its `IN` list has one `%s` placeholder per
supplied id (`','.join(['%s'] * len(user_ids))`). -/
def batchSQL (n : Nat) : String :=
  "SELECT user_id, email, first_name, last_name FROM users WHERE user_id IN ("
    ++ String.intercalate "," (List.replicate n "%s") ++ ")"

/-! ## The public methods of `RDSApp` -/

/-- Body of `RDSApp.create_user`: one parameterized INSERT; a duplicate
IntegrityError is caught, reported, and re-raised unchanged; on success the
transaction is committed and `cursor.lastrowid` (0: `users` has no
auto-increment column) is returned. -/
def create_user_body (uid em fn ln : String) : Body Nat := fun conn =>
  let ev := Event.execute usersInsertSQL [Value.s uid, Value.s em, Value.s fn, Value.s ln]
  match insertUser ⟨uid, em, fn, ln⟩ conn.working with
  | Except.error e => (Except.error e, conn, [ev])
  | Except.ok w => (Except.ok 0, { committed := w, working := w }, [ev, Event.commit])

/-- `RDSApp.create_user`. -/
def create_user (db : DB) (uid em fn ln : String) : Outcome Nat :=
  get_connection db (create_user_body uid em fn ln)

/-- Body of `RDSApp.get_user`: point SELECT, `fetchone`, `None` when no row
matched (not an error). -/
def get_user_body (uid : String) : Body (Option UserRow) := fun conn =>
  (Except.ok (findUser conn.working uid), conn, [Event.execute getUserSQL [Value.s uid]])

/-- `RDSApp.get_user`. -/
def get_user (db : DB) (uid : String) : Outcome (Option UserRow) :=
  get_connection db (get_user_body uid)

/-- The joined User+Preferences view returned by
`RDSApp.get_user_with_preferences`: preference fields are NULL (`none`)
when the LEFT JOIN found no `preferences` row. -/
structure UserPrefView where
  user_id : String
  email : String
  first_name : String
  last_name : String
  theme : Option String
  notifications : Option Bool
deriving Repr, DecidableEq

/-- Semantics of the LEFT JOIN of `users` to `preferences` restricted to
one `user_id`, followed by `fetchone`. -/
def joinUserPrefs (db : DB) (uid : String) : Option UserPrefView :=
  match findUser db uid with
  | none => none
  | some u =>
    match findPref db uid with
    | none => some ⟨u.user_id, u.email, u.first_name, u.last_name, none, none⟩
    | some p => some ⟨u.user_id, u.email, u.first_name, u.last_name, some p.theme, some p.notifications⟩

/-- Body of `RDSApp.get_user_with_preferences`. -/
def get_user_with_preferences_body (uid : String) : Body (Option UserPrefView) := fun conn =>
  (Except.ok (joinUserPrefs conn.working uid), conn,
    [Event.execute userPrefsJoinSQL [Value.s uid]])

/-- `RDSApp.get_user_with_preferences`. -/
def get_user_with_preferences (db : DB) (uid : String) : Outcome (Option UserPrefView) :=
  get_connection db (get_user_with_preferences_body uid)

/-- Python truthiness of an optional string argument defaulting to `None`
(`if start_time:`): `None` and the empty string are falsy. -/
def truthyOpt : Option String → Bool
  | none => false
  | some s => !s.isEmpty

/-- The dynamically built query text of `RDSApp.get_user_activity`: a
comparison clause is appended for a bound exactly when that argument is
truthy. -/
def activityQueryText (st et : Option String) : String :=
  activityBaseSQL
    ++ (if truthyOpt st then lowerClauseSQL else "")
    ++ (if truthyOpt et then upperClauseSQL else "")
    ++ orderClauseSQL

/-- The parameter list of `RDSApp.get_user_activity` (`params.append` runs
under the same truthiness tests). -/
def activityParams (uid : String) (st et : Option String) : List Value :=
  [Value.s uid]
    ++ (if truthyOpt st then [Value.s (st.getD "")] else [])
    ++ (if truthyOpt et then [Value.s (et.getD "")] else [])

/-- Lexicographic comparison of character lists by code point (the order
MySQL applies to the string rendering of timestamps). -/
def charsLe : List Char → List Char → Bool
  | [], _ => true
  | _ :: _, [] => false
  | a :: as2, b :: bs =>
    if a.toNat < b.toNat then true
    else if a.toNat = b.toNat then charsLe as2 bs
    else false

/-- Engine string comparison (timestamps compare lexicographically). -/
def strLe (a b : String) : Bool := charsLe a.data b.data

/-- Engine-side row filter of the built activity query. -/
def activityRowMatch (uid : String) (st et : Option String) (a : ActivityRow) : Bool :=
  a.user_id == uid
    && (if truthyOpt st then strLe (st.getD "") a.login_time else true)
    && (if truthyOpt et then strLe a.login_time (et.getD "") else true)

/-- Ordering used by `ORDER BY login_time ASC`. -/
def actLe (a b : ActivityRow) : Prop := strLe a.login_time b.login_time = true

instance : DecidableRel actLe := fun a b =>
  inferInstanceAs (Decidable (strLe a.login_time b.login_time = true))

instance : IsTotal ActivityRow actLe := by
  constructor
  intro a b
  show charsLe a.login_time.data b.login_time.data = true
    ∨ charsLe b.login_time.data a.login_time.data = true
  generalize a.login_time.data = x
  generalize b.login_time.data = y
  induction x generalizing y with
  | nil => exact Or.inl rfl
  | cons c cs ih =>
    cases y with
    | nil => exact Or.inr rfl
    | cons d ds =>
      by_cases h1 : c.toNat < d.toNat
      · exact Or.inl (by simp [charsLe, h1])
      · by_cases h2 : c.toNat = d.toNat
        · rcases ih ds with h | h
          · exact Or.inl (by simp [charsLe, h1, h2, h])
          · refine Or.inr ?_
            have h3 : ¬ d.toNat < c.toNat := by omega
            have h4 : d.toNat = c.toNat := h2.symm
            simp [charsLe, h3, h4, h]
        · refine Or.inr ?_
          have h3 : d.toNat < c.toNat := by omega
          simp [charsLe, h3]

instance : IsTrans ActivityRow actLe := by
  constructor
  intro a b c hab hbc
  show charsLe a.login_time.data c.login_time.data = true
  have hab2 : charsLe a.login_time.data b.login_time.data = true := hab
  have hbc2 : charsLe b.login_time.data c.login_time.data = true := hbc
  revert hab2 hbc2
  generalize a.login_time.data = x
  generalize b.login_time.data = y
  generalize c.login_time.data = z
  intro h1 h2
  induction x generalizing y z with
  | nil => rfl
  | cons p ps ih =>
    cases y with
    | nil => simp [charsLe] at h1
    | cons q qs =>
      cases z with
      | nil => simp [charsLe] at h2
      | cons r rs =>
        simp only [charsLe] at h1 h2 ⊢
        by_cases hpq : p.toNat < q.toNat
        · by_cases hqr : q.toNat < r.toNat
          · simp [show p.toNat < r.toNat by omega]
          · by_cases hqr2 : q.toNat = r.toNat
            · simp [show p.toNat < r.toNat by omega]
            · simp [hqr, hqr2] at h2
        · by_cases hpq2 : p.toNat = q.toNat
          · simp only [if_neg hpq, if_pos hpq2] at h1
            by_cases hqr : q.toNat < r.toNat
            · simp [show p.toNat < r.toNat by omega]
            · by_cases hqr2 : q.toNat = r.toNat
              · simp only [if_neg hqr, if_pos hqr2] at h2
                have h3 : ¬ p.toNat < r.toNat := by omega
                simp only [if_neg h3, if_pos (show p.toNat = r.toNat by omega)]
                exact ih qs rs h1 h2
              · simp [hqr, hqr2] at h2
          · simp [hpq, hpq2] at h1

/-- Whether string `s` contains `sub` as a contiguous substring. -/
def hasSub (s sub : String) : Bool := subl sub.data s.data

/-- Body of `RDSApp.get_user_activity`: execute the dynamically built
query; the engine filters and orders the rows. -/
def get_user_activity_body (uid : String) (st et : Option String) : Body (List ActivityRow) :=
  fun conn =>
    (Except.ok (List.insertionSort actLe (conn.working.activity.filter (activityRowMatch uid st et))),
      conn,
      [Event.execute (activityQueryText st et) (activityParams uid st et)])

/-- `RDSApp.get_user_activity`. -/
def get_user_activity (db : DB) (uid : String) (st et : Option String) : Outcome (List ActivityRow) :=
  get_connection db (get_user_activity_body uid st et)

/-- The WHERE test of `RDSApp.update_login_count`. -/
def updLoginMatch (uid : String) (aid : Nat) (a : ActivityRow) : Bool :=
  a.user_id == uid && a.activity_id == aid

/-- Body of `RDSApp.update_login_count`: a single engine-side UPDATE with
the increment expression, then commit; returns `cursor.rowcount` when
positive, else 0 (matched rows are the affected rows in this model). -/
def update_login_count_body (uid : String) (aid : Nat) (inc : Int) : Body Nat := fun conn =>
  let w := conn.working
  let matched := (w.activity.filter (updLoginMatch uid aid)).length
  let w2 : DB := { w with
    activity := w.activity.map fun a =>
      if updLoginMatch uid aid a then { a with login_count := a.login_count + inc } else a }
  (Except.ok (if matched > 0 then matched else 0),
    { committed := w2, working := w2 },
    [Event.execute updateLoginSQL [Value.i inc, Value.s uid, Value.i (Int.ofNat aid)], Event.commit])

/-- `RDSApp.update_login_count` (increment defaults to 1 at call sites). -/
def update_login_count (db : DB) (uid : String) (aid : Nat) (inc : Int) : Outcome Nat :=
  get_connection db (update_login_count_body uid aid inc)

/-- The SET clause fragments built by `RDSApp.update_preferences` for the
supplied fields (`is not None` tests, not truthiness). -/
def prefUpdateClauses (th : Option String) (nt : Option Bool) : List String :=
  (if th.isSome then ["theme = %s"] else []) ++ (if nt.isSome then ["notifications = %s"] else [])

/-- The dynamically built UPDATE text of `RDSApp.update_preferences`. -/
def prefUpdateText (th : Option String) (nt : Option Bool) : String :=
  "UPDATE preferences SET " ++ String.intercalate ", " (prefUpdateClauses th nt)
    ++ " WHERE user_id = %s"

/-- The parameter list of `RDSApp.update_preferences`. -/
def prefUpdateParams (uid : String) (th : Option String) (nt : Option Bool) : List Value :=
  (match th with | some t => [Value.s t] | none => [])
    ++ (match nt with | some b => [Value.b b] | none => [])
    ++ [Value.s uid]

/-- Engine semantics of the built UPDATE: touched rows keep unsupplied
fields. -/
def prefsApply (db : DB) (uid : String) (th : Option String) (nt : Option Bool) : DB :=
  { db with prefs := db.prefs.map fun p =>
      if p.user_id == uid then
        { p with theme := th.getD p.theme, notifications := nt.getD p.notifications }
      else p }

/-- Body of `RDSApp.update_preferences` once at least one field was
supplied: execute the built UPDATE, commit, return the rowcount. -/
def update_preferences_body (uid : String) (th : Option String) (nt : Option Bool) : Body Nat :=
  fun conn =>
    let w2 := prefsApply conn.working uid th nt
    (Except.ok ((conn.working.prefs.filter fun p => p.user_id == uid).length),
      { committed := w2, working := w2 },
      [Event.execute (prefUpdateText th nt) (prefUpdateParams uid th nt), Event.commit])

/-- `RDSApp.update_preferences`: with neither field supplied it reports
"No updates specified" and returns `None` before any connection is opened;
otherwise it updates, commits, and on a positive rowcount returns the
refreshed joined view via `self.get_user_with_preferences` (in the source
that nested call runs its own connection inside the outer `with` block,
after the commit; composing it after the outer close is observationally
identical for result and persistent state). -/
def update_preferences (db : DB) (uid : String) (th : Option String) (nt : Option Bool) :
    Outcome (Option UserPrefView) :=
  if th.isNone && nt.isNone then
    ⟨Except.ok none, db, []⟩
  else
    let outer := get_connection db (update_preferences_body uid th nt)
    match outer.result with
    | Except.ok n =>
      if n > 0 then
        let inner := get_user_with_preferences outer.db uid
        ⟨inner.result, inner.db, outer.trace ++ inner.trace⟩
      else
        ⟨Except.ok none, outer.db, outer.trace⟩
    | Except.error e => ⟨Except.error e, outer.db, outer.trace⟩

/-- Body of `RDSApp.search_users_by_email`: one parameterized SELECT whose
bound parameter is the caller substring wrapped in `%` wildcards
(`f"%{email_pattern}%"`); the engine applies LIKE to each email. -/
def search_users_by_email_body (pat : String) : Body (List UserRow) := fun conn =>
  (Except.ok (conn.working.users.filter fun u => likeM ("%" ++ pat ++ "%").data u.email.data),
    conn,
    [Event.execute searchSQL [Value.s ("%" ++ pat ++ "%")]])

/-- `RDSApp.search_users_by_email`. -/
def search_users_by_email (db : DB) (pat : String) : Outcome (List UserRow) :=
  get_connection db (search_users_by_email_body pat)

/-- The rows `search_users_by_email` returns on success. -/
def searchRows (db : DB) (pat : String) : List UserRow :=
  db.users.filter fun u => likeM ("%" ++ pat ++ "%").data u.email.data

/-- Body of `RDSApp.create_user_with_preferences`: User insert, then
Preferences insert, inside one transaction; on any failure the inner
handler rolls back and re-raises; on success both are committed together
and `True` is returned. -/
def create_user_with_preferences_body (uid em fn ln th : String) (nt : Bool) : Body Bool :=
  fun conn =>
    let ev1 := Event.execute usersInsertSQL [Value.s uid, Value.s em, Value.s fn, Value.s ln]
    match insertUser ⟨uid, em, fn, ln⟩ conn.working with
    | Except.error e => (Except.error e, { conn with working := conn.committed }, [ev1, Event.rollback])
    | Except.ok w1 =>
      let ev2 := Event.execute prefsInsertSQL [Value.s uid, Value.s th, Value.b nt]
      match insertPref ⟨uid, th, nt⟩ w1 with
      | Except.error e =>
        (Except.error e, { conn with working := conn.committed }, [ev1, ev2, Event.rollback])
      | Except.ok w2 => (Except.ok true, { committed := w2, working := w2 }, [ev1, ev2, Event.commit])

/-- `RDSApp.create_user_with_preferences`. -/
def create_user_with_preferences (db : DB) (uid em fn ln th : String) (nt : Bool) : Outcome Bool :=
  get_connection db (create_user_with_preferences_body uid em fn ln th nt)

/-- Body of `RDSApp.batch_get_users` for a non-empty id list: one SELECT
with an IN membership test, one placeholder per id. -/
def batch_get_users_body (uids : List String) : Body (List UserRow) := fun conn =>
  (Except.ok (conn.working.users.filter fun u => uids.contains u.user_id),
    conn,
    [Event.execute (batchSQL uids.length) (uids.map Value.s)])

/-- `RDSApp.batch_get_users`: `if not user_ids: return []` short-circuits
before any connection is opened. -/
def batch_get_users (db : DB) (uids : List String) : Outcome (List UserRow) :=
  if uids.isEmpty then
    ⟨Except.ok [], db, []⟩
  else
    get_connection db (batch_get_users_body uids)

/-- The parsed seed document: three named collections, field names matching
the column names. -/
structure SeedData where
  users : List UserRow
  activity : List SeedActivity
  preferences : List PrefRow
deriving Repr, DecidableEq

/-- Parameter rendering of a seed user record (named placeholders). -/
def seedUserParams (u : UserRow) : List Value :=
  [Value.s u.user_id, Value.s u.email, Value.s u.first_name, Value.s u.last_name]

/-- Parameter rendering of a seed activity record. -/
def seedActParams (a : SeedActivity) : List Value :=
  [Value.s a.user_id, Value.s a.login_time, Value.i a.login_count]

/-- Parameter rendering of a seed preferences record. -/
def seedPrefParams (p : PrefRow) : List Value :=
  [Value.s p.user_id, Value.s p.theme, Value.b p.notifications]

/-- One `for record in collection: cursor.execute(...)` loop: stops at the
first raising execute (whose event is still traced), threading the working
state through. -/
def insertAll {β : Type} (sqlText : String) (toParams : β → List Value)
    (ins : β → DB → Except DBError DB) : List β → DB → Except DBError DB × List Event
  | [], w => (Except.ok w, [])
  | r :: rs, w =>
    let ev := Event.execute sqlText (toParams r)
    match ins r w with
    | Except.error e => (Except.error e, [ev])
    | Except.ok w2 =>
      let rest := insertAll sqlText toParams ins rs w2
      (rest.1, ev :: rest.2)

/-- Body of `RDSApp.load_seed_data` once the file was parsed: insert users,
then activity records, then preferences, and commit once at the end; any
failure leaves the connection's committed state untouched. -/
def load_seed_body (sd : SeedData) : Body Unit := fun conn =>
  let r1 := insertAll seedUsersSQL seedUserParams insertUser sd.users conn.working
  match r1.1 with
  | Except.error e => (Except.error e, conn, r1.2)
  | Except.ok w1 =>
    let r2 := insertAll seedActivitySQL seedActParams insertActivity sd.activity w1
    match r2.1 with
    | Except.error e => (Except.error e, conn, r1.2 ++ r2.2)
    | Except.ok w2 =>
      let r3 := insertAll seedPrefsSQL seedPrefParams insertPref sd.preferences w2
      match r3.1 with
      | Except.error e => (Except.error e, conn, r1.2 ++ r2.2 ++ r3.2)
      | Except.ok w3 =>
        (Except.ok (), { committed := w3, working := w3 }, r1.2 ++ r2.2 ++ r3.2 ++ [Event.commit])

/-- `RDSApp.load_seed_data`: `open(filename)` runs before `get_connection`,
so a missing file re-raises `FileNotFoundError` with no connection opened;
`fs` models the readable files as parsed seed documents. -/
def load_seed_data (fs : String → Option SeedData) (db : DB) (filename : String) : Outcome Unit :=
  match fs filename with
  | none => ⟨Except.error (DBError.fileNotFound filename), db, []⟩
  | some sd => get_connection db (load_seed_body sd)

/-! ## Concrete example states used to evaluate the definitions -/

/-- Example state: empty database. -/
def dbEmpty : DB := ⟨[], [], []⟩

/-- Example state: one user `u1` with a preferences row. -/
def dbU1 : DB := ⟨[⟨"u1", "u1@x.com", "A", "B"⟩], [], [⟨"u1", "light", true⟩]⟩

/-- Example state: one user whose email contains the three consecutive
characters `abc`. -/
def dbAbc : DB := ⟨[⟨"ua", "abc@example.com", "A", "B"⟩], [], []⟩

/-- Example state: a stray preferences row for `u2` and no user rows, which
makes the preferences insert of `create_user_with_preferences` raise. -/
def dbStray : DB := ⟨[], [], [⟨"u2", "light", true⟩]⟩

/-- Example state with two activity rows for `u1`. -/
def dbAct : DB :=
  ⟨[⟨"u1", "u1@x.com", "A", "B"⟩],
    [⟨1, "u1", "2023-10-31 10:00:00", 1⟩, ⟨2, "u1", "2023-11-01 09:00:00", 3⟩], []⟩

/-- Example seed document. -/
def sdGood : SeedData :=
  ⟨[⟨"u1", "u1@x.com", "A", "B"⟩], [⟨"u1", "2023-10-31 10:00:00", 1⟩], [⟨"u1", "dark", false⟩]⟩

/-- Seed document whose second user record raises a duplicate-entry
error. -/
def sdDup : SeedData :=
  ⟨[⟨"u1", "u1@x.com", "A", "B"⟩, ⟨"u1", "u1b@x.com", "C", "D"⟩], [], []⟩

/-- Example file system for the seed loader: only `seed_data.json`
exists. -/
def fsDemo : String → Option SeedData :=
  fun n => if n = "seed_data.json" then some sdGood else none

/-- File system whose only seed document fails mid-way. -/
def fsDup : String → Option SeedData :=
  fun n => if n = "seed_data.json" then some sdDup else none

/-! ## Theorems -/

/-- A trace that ends with a close event, whatever comes before. -/
theorem trace_getLast_close (a : Event) (l1 l2 : List Event) :
    (a :: (l1 ++ (l2 ++ [Event.close]))).getLast? = some Event.close := by
  rw [show a :: (l1 ++ (l2 ++ [Event.close])) = (a :: (l1 ++ l2)) ++ [Event.close] by simp]
  exact List.getLast?_concat _

/-- C2: for every body function, `get_connection` acquires exactly one
connection configured with autocommit disabled, and on every exit path —
normal return or raised error — the connection is closed; when the body
raises, the connection is rolled back before being closed and the same
error is re-raised unchanged. -/
theorem C2_connection_manager {α : Type} (body : Body α) (db : DB) :
    (∀ a, (body (Conn.fresh db)).1 = Except.ok a →
      get_connection db body =
        ⟨Except.ok a, (body (Conn.fresh db)).2.1.committed,
          Event.connect connection_params_autocommit ::
            ((body (Conn.fresh db)).2.2 ++ [Event.close])⟩)
    ∧ (∀ e, (body (Conn.fresh db)).1 = Except.error e →
      get_connection db body =
        ⟨Except.error e, (body (Conn.fresh db)).2.1.committed,
          Event.connect connection_params_autocommit ::
            ((body (Conn.fresh db)).2.2 ++ [Event.rollback, Event.close])⟩)
    ∧ connection_params_autocommit = false
    ∧ ((body (Conn.fresh db)).2.2.countP isConnectEvent = 0 →
        (get_connection db body).trace.countP isConnectEvent = 1)
    ∧ (get_connection db body).trace.getLast? = some Event.close := by
  rcases hb : body (Conn.fresh db) with ⟨res, c2, tr⟩
  cases res with
  | ok a =>
    refine ⟨?_, ?_, rfl, ?_, ?_⟩
    · intro a2 ha
      simp only [hb] at ha ⊢
      cases ha
      simp [get_connection, hb]
    · intro e he
      simp only [hb] at he
      cases he
    · intro hc
      simp only [hb] at hc
      simp [get_connection, hb, List.countP_cons, List.countP_append, isConnectEvent, hc]
    · have : (get_connection db body).trace = Event.connect connection_params_autocommit ::
          (tr ++ ([] ++ [Event.close])) := by
        simp [get_connection, hb]
      rw [this]
      exact trace_getLast_close _ _ _
  | error e =>
    refine ⟨?_, ?_, rfl, ?_, ?_⟩
    · intro a2 ha
      simp only [hb] at ha
      cases ha
    · intro e2 he
      simp only [hb] at he ⊢
      cases he
      simp [get_connection, hb]
    · intro hc
      simp only [hb] at hc
      simp [get_connection, hb, List.countP_cons, List.countP_append, isConnectEvent, hc]
    · have : (get_connection db body).trace = Event.connect connection_params_autocommit ::
          (tr ++ ([Event.rollback] ++ [Event.close])) := by
        simp [get_connection, hb]
      rw [this]
      exact trace_getLast_close _ _ _

/-- Witness for C2: a successful read body (connection opened once and
closed), and a failing transactional body (same error re-raised, rollback
before close). -/
theorem C2_connection_manager_witness :
    get_connection dbEmpty (get_user_body "u1") =
      ⟨Except.ok none, dbEmpty,
        [Event.connect false, Event.execute getUserSQL [Value.s "u1"], Event.close]⟩
    ∧ (get_connection dbEmpty (get_user_body "u1")).trace.countP isConnectEvent = 1
    ∧ get_connection dbStray (create_user_with_preferences_body "u2" "e@x.com" "E" "F" "dark" false) =
      ⟨Except.error (DBError.integrityDuplicate "u2"), dbStray,
        [Event.connect false,
         Event.execute usersInsertSQL
           [Value.s "u2", Value.s "e@x.com", Value.s "E", Value.s "F"],
         Event.execute prefsInsertSQL [Value.s "u2", Value.s "dark", Value.b false],
         Event.rollback, Event.rollback, Event.close]⟩ := by
  refine ⟨?_, ?_, ?_⟩
  · exact ((C2_connection_manager (get_user_body "u1") dbEmpty).1 none rfl).trans (by decide)
  · exact (C2_connection_manager (get_user_body "u1") dbEmpty).2.2.2.1 (by decide)
  · exact ((C2_connection_manager
        (create_user_with_preferences_body "u2" "e@x.com" "E" "F" "dark" false) dbStray).2.1
        (DBError.integrityDuplicate "u2") (by decide)).trans (by decide)

/-- C6: `update_login_count` issues a single engine-side increment
statement (`login_count = login_count + %s`, one UPDATE, no read), returns
the number of matching rows, commits the increment, and a return of 0 means
no matching row and raises nothing. -/
theorem C6_update_login_count (db : DB) (uid : String) (aid : Nat) (inc : Int) :
    (update_login_count db uid aid inc).result =
      Except.ok ((db.activity.filter (updLoginMatch uid aid)).length)
    ∧ (update_login_count db uid aid inc).db =
      { db with activity := db.activity.map fun a =>
          if updLoginMatch uid aid a then { a with login_count := a.login_count + inc } else a }
    ∧ (update_login_count db uid aid inc).trace =
      [Event.connect connection_params_autocommit,
       Event.execute updateLoginSQL [Value.i inc, Value.s uid, Value.i (Int.ofNat aid)],
       Event.commit, Event.close]
    ∧ ((db.activity.filter (updLoginMatch uid aid)).length = 0 →
        (update_login_count db uid aid inc).result = Except.ok 0
        ∧ (update_login_count db uid aid inc).db = db) := by
  have hsame : ∀ n : Nat, (if n > 0 then n else 0) = n := by
    intro n
    by_cases h : n > 0
    · simp [h]
    · simp [h]
      omega
  have h1 : (update_login_count db uid aid inc).result =
      Except.ok ((db.activity.filter (updLoginMatch uid aid)).length) := by
    simp [update_login_count, get_connection, update_login_count_body, Conn.fresh, hsame]
  have h2 : (update_login_count db uid aid inc).db =
      { db with activity := db.activity.map fun a =>
          if updLoginMatch uid aid a then { a with login_count := a.login_count + inc } else a } := by
    simp [update_login_count, get_connection, update_login_count_body, Conn.fresh]
  refine ⟨h1, h2, ?_, ?_⟩
  · simp [update_login_count, get_connection, update_login_count_body, Conn.fresh]
  · intro h
    have hfil : db.activity.filter (updLoginMatch uid aid) = [] := List.length_eq_zero.mp h
    have hneg : ∀ a ∈ db.activity, updLoginMatch uid aid a = false := by
      intro a ha
      by_contra hne
      have ht : updLoginMatch uid aid a = true := by
        cases hx : updLoginMatch uid aid a
        · exact absurd hx hne
        · rfl
      have : a ∈ db.activity.filter (updLoginMatch uid aid) := List.mem_filter.mpr ⟨ha, ht⟩
      rw [hfil] at this
      cases this
    have hid : (db.activity.map fun a =>
        if updLoginMatch uid aid a then { a with login_count := a.login_count + inc } else a) =
        db.activity := by
      have := List.map_congr_left (l := db.activity)
        (f := fun a => if updLoginMatch uid aid a then
          { a with login_count := a.login_count + inc } else a)
        (g := id) (by intro a ha; simp [hneg a ha])
      simpa using this
    refine ⟨?_, ?_⟩
    · rw [h1, h]
    · rw [h2, hid]

/-- Witness for C6: on a state with no matching row, the call returns 0 and
changes nothing. -/
theorem C6_update_login_count_witness :
    (update_login_count dbEmpty "u1" 1 2).result = Except.ok 0
    ∧ (update_login_count dbEmpty "u1" 1 2).db = dbEmpty := by
  exact (C6_update_login_count dbEmpty "u1" 1 2).2.2.2 (by decide)

/-- C7: `batch_get_users` with an empty id list returns an empty result
without opening a connection or issuing a query; with a non-empty list it
issues exactly one query binding every supplied id for the IN membership
test, and returns all matching user rows. -/
theorem C7_batch_get_users (db : DB) (uids : List String) :
    batch_get_users db [] = ⟨Except.ok [], db, []⟩
    ∧ (uids ≠ [] →
        (batch_get_users db uids).trace =
          [Event.connect connection_params_autocommit,
           Event.execute (batchSQL uids.length) (uids.map Value.s),
           Event.close]
        ∧ (batch_get_users db uids).result =
            Except.ok (db.users.filter fun u => uids.contains u.user_id)
        ∧ (batch_get_users db uids).db = db) := by
  constructor
  · rfl
  · intro h
    have he : uids.isEmpty = false := List.isEmpty_eq_false.mpr h
    refine ⟨?_, ?_, ?_⟩ <;>
      simp [batch_get_users, he, get_connection, batch_get_users_body, Conn.fresh]

/-- Witness for C7: a two-id batch issues one IN query and returns the
matching row. -/
theorem C7_batch_get_users_witness :
    (batch_get_users dbU1 ["u1", "zz"]).trace =
      [Event.connect false, Event.execute (batchSQL 2) [Value.s "u1", Value.s "zz"], Event.close]
    ∧ (batch_get_users dbU1 ["u1", "zz"]).result =
        Except.ok [⟨"u1", "u1@x.com", "A", "B"⟩] := by
  have h := (C7_batch_get_users dbU1 ["u1", "zz"]).2 (by decide)
  exact ⟨h.1.trans (by decide), h.2.1.trans (by decide)⟩

/-- C8: the SQL text executed by `search_users_by_email` is one fixed
string for all caller-supplied substrings (the substring travels only as a
bound parameter), and likewise the text executed by `create_user` is one
fixed string for all caller-supplied field values, on both its success and
its duplicate-error path. -/
theorem C8_sql_text_constant (db db2 : DB) (pat uid em fn ln : String) :
    execTexts (search_users_by_email db pat).trace = [searchSQL]
    ∧ (search_users_by_email db pat).trace =
        [Event.connect connection_params_autocommit,
         Event.execute searchSQL [Value.s ("%" ++ pat ++ "%")],
         Event.close]
    ∧ execTexts (create_user db2 uid em fn ln).trace = [usersInsertSQL] := by
  refine ⟨?_, ?_, ?_⟩
  · simp [search_users_by_email, get_connection, search_users_by_email_body, Conn.fresh, execTexts]
  · simp [search_users_by_email, get_connection, search_users_by_email_body, Conn.fresh]
  · cases hi : insertUser ⟨uid, em, fn, ln⟩ db2 with
    | error e =>
      simp [create_user, get_connection, create_user_body, Conn.fresh, hi, execTexts]
    | ok w =>
      simp [create_user, get_connection, create_user_body, Conn.fresh, hi, execTexts]

/-- Counterexample for C4: the bound `some ""` is provided, yet no
lower-bound clause is appended — the statement, parameters, and the whole
call coincide with the omitted-bound call, contradicting "appends a
lower-bound clause exactly when start_time is provided". -/
theorem C4_counterexample :
    truthyOpt (some "") = false
    ∧ activityQueryText (some "") none = activityQueryText none none
    ∧ hasSub (activityQueryText (some "") none) lowerClauseSQL = false
    ∧ get_user_activity dbAct "u1" (some "") none = get_user_activity dbAct "u1" none none := by
  refine ⟨rfl, rfl, by decide, by decide⟩

/-- C4 (amended): `get_user_activity` appends the lower-bound clause
exactly when `start_time` is provided and truthy, and the upper-bound
clause exactly when `end_time` is provided and truthy; an omitted — or
falsy — bound imposes no filter (the call equals the omitted-bound call);
the returned rows are exactly the matching rows, ordered ascending by
`login_time`. -/
theorem C4_activity_query (db : DB) (uid : String) (st et : Option String) :
    hasSub (activityQueryText st et) lowerClauseSQL = truthyOpt st
    ∧ hasSub (activityQueryText st et) upperClauseSQL = truthyOpt et
    ∧ (truthyOpt st = false → get_user_activity db uid st et = get_user_activity db uid none et)
    ∧ (truthyOpt et = false → get_user_activity db uid st et = get_user_activity db uid st none)
    ∧ (∃ l, (get_user_activity db uid st et).result = Except.ok l
        ∧ List.Pairwise actLe l
        ∧ (∀ a, a ∈ l ↔ a ∈ db.activity ∧ activityRowMatch uid st et a = true)) := by
  refine ⟨?_, ?_, ?_, ?_, ?_⟩
  · cases hst : truthyOpt st <;> cases het : truthyOpt et <;>
      simp only [activityQueryText, hst, het, if_true, if_false] <;> decide
  · cases hst : truthyOpt st <;> cases het : truthyOpt et <;>
      simp only [activityQueryText, hst, het, if_true, if_false] <;> decide
  · intro h
    have hn : truthyOpt (none : Option String) = false := rfl
    have hq : activityQueryText st et = activityQueryText none et := by
      simp only [activityQueryText, h, hn]
    have hp : activityParams uid st et = activityParams uid none et := by
      simp [activityParams, h, hn]
    have hm : activityRowMatch uid st et = activityRowMatch uid none et := by
      funext a; simp [activityRowMatch, h, hn]
    have hb : get_user_activity_body uid st et = get_user_activity_body uid none et := by
      funext conn
      simp only [get_user_activity_body, hq, hp, hm]
    simp only [get_user_activity, hb]
  · intro h
    have hn : truthyOpt (none : Option String) = false := rfl
    have hq : activityQueryText st et = activityQueryText st none := by
      simp only [activityQueryText, h, hn]
    have hp : activityParams uid st et = activityParams uid st none := by
      simp [activityParams, h, hn]
    have hm : activityRowMatch uid st et = activityRowMatch uid st none := by
      funext a; simp [activityRowMatch, h, hn]
    have hb : get_user_activity_body uid st et = get_user_activity_body uid st none := by
      funext conn
      simp only [get_user_activity_body, hq, hp, hm]
    simp only [get_user_activity, hb]
  · refine ⟨List.insertionSort actLe (db.activity.filter (activityRowMatch uid st et)), ?_, ?_, ?_⟩
    · simp [get_user_activity, get_connection, get_user_activity_body, Conn.fresh]
    · exact List.sorted_insertionSort actLe _
    · intro a
      rw [(List.perm_insertionSort actLe _).mem_iff, List.mem_filter]

/-- Witness for C4: at a provided-but-falsy lower bound and an omitted
upper bound both no-filter equalities hold on a concrete state. -/
theorem C4_activity_query_witness :
    get_user_activity dbAct "u1" (some "") none = get_user_activity dbAct "u1" none none
    ∧ get_user_activity dbAct "u1" (some "") none = get_user_activity dbAct "u1" (some "") none := by
  exact ⟨(C4_activity_query dbAct "u1" (some "") none).2.2.1 rfl,
    (C4_activity_query dbAct "u1" (some "") none).2.2.2.1 rfl⟩

/-- C9: `get_user_activity` tests the truthiness of each bound, not whether
it was supplied: a provided falsy bound (the empty string) imposes no
filter, exactly as if it had been omitted. -/
theorem C9_falsy_bounds (db : DB) (uid : String) :
    (∀ et, get_user_activity db uid (some "") et = get_user_activity db uid none et)
    ∧ (∀ st, get_user_activity db uid st (some "") = get_user_activity db uid st none) := by
  constructor
  · intro et
    exact (C4_activity_query db uid (some "") et).2.2.1 rfl
  · intro st
    exact (C4_activity_query db uid st (some "")).2.2.2.1 rfl

/-- Reading through `get_user_with_preferences` never changes the
persistent state, and its result is the joined view. -/
theorem get_user_with_preferences_spec (db : DB) (uid : String) :
    (get_user_with_preferences db uid).db = db
    ∧ (get_user_with_preferences db uid).result = Except.ok (joinUserPrefs db uid) := by
  constructor <;>
    simp [get_user_with_preferences, get_connection, get_user_with_preferences_body, Conn.fresh]

/-- A `find?` hit survives an in-place `map` whose function preserves the
predicate. -/
theorem find_map_pred {A : Type} (p : A → Bool) (f : A → A) (hf : ∀ a, p (f a) = p a) :
    ∀ (l : List A) (a0 : A), l.find? p = some a0 → (l.map f).find? p = some (f a0) := by
  intro l
  induction l with
  | nil => intro a0 h; simp at h
  | cons q qs ih =>
    intro a0 h
    cases hq : p q with
    | true =>
      simp only [List.find?_cons, hq] at h
      cases h
      simp only [List.map_cons, List.find?_cons, hf q, hq]
    | false =>
      simp only [List.find?_cons, hq] at h
      simp only [List.map_cons, List.find?_cons, hf q, hq]
      exact ih a0 h

/-- The UPDATE of `update_preferences` rewrites the matched `preferences`
row in place: the updated table still finds the row, with supplied fields
replaced and unsupplied fields kept. -/
theorem find_pref_apply (prefs : List PrefRow) (uid : String) (th : Option String)
    (nt : Option Bool) (p0 : PrefRow)
    (h : prefs.find? (fun p => p.user_id == uid) = some p0) :
    (prefs.map fun p =>
        if p.user_id == uid then
          { p with theme := th.getD p.theme, notifications := nt.getD p.notifications }
        else p).find? (fun p => p.user_id == uid) =
      some (if p0.user_id == uid then
        { p0 with theme := th.getD p0.theme, notifications := nt.getD p0.notifications }
        else p0) := by
  refine find_map_pred _ _ ?_ prefs p0 h
  intro a
  cases ha : (a.user_id == uid) with
  | true => simpa using ha
  | false => simpa using ha

/-- Counterexample for C3: on a state with no `preferences` row for `u1`,
the caller-error call (no fields supplied) and the no-matching-row call
return the very same value `None` — the two reports are not distinguishable
by the caller. -/
theorem C3_counterexample :
    (update_preferences dbEmpty "u1" (some "dark") none).result = Except.ok none
    ∧ (update_preferences dbEmpty "u1" none none).result = Except.ok none
    ∧ (update_preferences dbEmpty "u1" (some "dark") none).result =
        (update_preferences dbEmpty "u1" none none).result := by
  refine ⟨by decide, rfl, by decide⟩

/-- C3 (amended): calling `update_preferences` with neither field supplied
returns `None` before any connection is opened or statement executed and
leaves storage untouched; when at least one field is supplied the UPDATE is
applied and committed, and if a `preferences` row matched, the refreshed
joined User+Preferences view is returned — but the caller-error report is
the same `None` value as the not-found indication, so the two are not
distinguishable from the returned value. -/
theorem C3_update_preferences (db : DB) (uid : String) (th : Option String) (nt : Option Bool)
    (u : UserRow) (p0 : PrefRow) :
    update_preferences db uid none none = ⟨Except.ok none, db, []⟩
    ∧ ((th.isNone && nt.isNone) = false →
        (update_preferences db uid th nt).db = prefsApply db uid th nt)
    ∧ ((th.isNone && nt.isNone) = false → findPref db uid = some p0 →
        (update_preferences db uid th nt).result =
          (get_user_with_preferences (prefsApply db uid th nt) uid).result)
    ∧ ((th.isNone && nt.isNone) = false → findPref db uid = some p0 → findUser db uid = some u →
        (update_preferences db uid th nt).result =
          Except.ok (some ⟨u.user_id, u.email, u.first_name, u.last_name,
            some (th.getD p0.theme), some (nt.getD p0.notifications)⟩)) := by
  have houter : get_connection db (update_preferences_body uid th nt) =
      ⟨Except.ok ((db.prefs.filter fun p => p.user_id == uid).length),
        prefsApply db uid th nt,
        [Event.connect connection_params_autocommit,
         Event.execute (prefUpdateText th nt) (prefUpdateParams uid th nt),
         Event.commit, Event.close]⟩ := by
    simp [get_connection, update_preferences_body, Conn.fresh]
  refine ⟨rfl, ?_, ?_, ?_⟩
  · intro h
    by_cases hn : (db.prefs.filter fun p => p.user_id == uid).length > 0
    · simp [update_preferences, h, houter, hn, (get_user_with_preferences_spec _ _).1]
    · simp [update_preferences, h, houter, hn]
  · intro h hp0
    have hp2 : db.prefs.find? (fun p => p.user_id == uid) = some p0 := hp0
    have hpred := List.find?_some hp2
    have hmem : p0 ∈ db.prefs.filter fun p => p.user_id == uid :=
      List.mem_filter.mpr ⟨List.mem_of_find?_eq_some hp2, hpred⟩
    have hn : (db.prefs.filter fun p => p.user_id == uid).length > 0 :=
      List.length_pos.mpr (List.ne_nil_of_mem hmem)
    simp [update_preferences, h, houter, hn]
  · intro h hp0 hu
    have hp2 : db.prefs.find? (fun p => p.user_id == uid) = some p0 := hp0
    have hpred := List.find?_some hp2
    have hmem : p0 ∈ db.prefs.filter fun p => p.user_id == uid :=
      List.mem_filter.mpr ⟨List.mem_of_find?_eq_some hp2, hpred⟩
    have hn : (db.prefs.filter fun p => p.user_id == uid).length > 0 :=
      List.length_pos.mpr (List.ne_nil_of_mem hmem)
    have hfu : findUser (prefsApply db uid th nt) uid = some u := hu
    have hfp : findPref (prefsApply db uid th nt) uid =
        some { p0 with theme := th.getD p0.theme, notifications := nt.getD p0.notifications} := by
      have hres := find_pref_apply db.prefs uid th nt p0 hp2
      rw [if_pos hpred] at hres
      exact hres
    have hjoin : joinUserPrefs (prefsApply db uid th nt) uid =
        some ⟨u.user_id, u.email, u.first_name, u.last_name,
          some (th.getD p0.theme), some (nt.getD p0.notifications)⟩ := by
      simp [joinUserPrefs, hfu, hfp]
    simp [update_preferences, h, houter, hn, (get_user_with_preferences_spec _ _).2, hjoin]

/-- Witness for C3: on a state holding `u1` with a preferences row, a
theme-only update returns the refreshed joined view with the new theme and
the kept notifications flag. -/
theorem C3_update_preferences_witness :
    (update_preferences dbU1 "u1" (some "dark") none).result =
      Except.ok (some ⟨"u1", "u1@x.com", "A", "B", some "dark", some true⟩)
    ∧ (update_preferences dbU1 "u1" (some "dark") none).db =
        ⟨[⟨"u1", "u1@x.com", "A", "B"⟩], [], [⟨"u1", "dark", true⟩]⟩ := by
  have h := C3_update_preferences dbU1 "u1" (some "dark") none
    ⟨"u1", "u1@x.com", "A", "B"⟩ ⟨"u1", "light", true⟩
  exact ⟨(h.2.2.2 rfl (by decide) (by decide)).trans (by decide),
    (h.2.1 rfl).trans (by decide)⟩

/-- Reading through `get_user` never changes the persistent state, and its
result is the point lookup (`None` when no row matched, not an error). -/
theorem get_user_spec (db : DB) (uid : String) :
    (get_user db uid).result = Except.ok (findUser db uid)
    ∧ (get_user db uid).db = db := by
  constructor <;> simp [get_user, get_connection, get_user_body, Conn.fresh]

/-- Appending a fresh row to a table whose rows all miss the predicate
makes `find?` return exactly that row. -/
theorem find_append_singleton {A : Type} (p : A → Bool) (l : List A) (a : A)
    (hl : ∀ x ∈ l, p x = false) (ha : p a = true) :
    (l ++ [a]).find? p = some a := by
  induction l with
  | nil => simp [List.find?_cons, ha]
  | cons q qs ih =>
    have hq : p q = false := hl q (by simp)
    simp only [List.cons_append, List.find?_cons, hq]
    exact ih fun x hx => hl x (by simp [hx])

/-- C1: `create_user_with_preferences` performs the User insert then the
Preferences insert inside one transaction: on success both rows are
retained; if either insert raises, the error is re-raised to the caller and
the persistent state is exactly the prior state (no User row and no
Preferences row from this call), so a subsequent `get_user` of a previously
absent id returns not-found. -/
theorem C1_transactional (db : DB) (uid em fn ln th : String) (nt : Bool) :
    (∀ e, (create_user_with_preferences db uid em fn ln th nt).result = Except.error e →
      (create_user_with_preferences db uid em fn ln th nt).db = db)
    ∧ (∀ e, insertUser ⟨uid, em, fn, ln⟩ db = Except.error e →
        (create_user_with_preferences db uid em fn ln th nt).result = Except.error e)
    ∧ (∀ w e, insertUser ⟨uid, em, fn, ln⟩ db = Except.ok w →
        insertPref ⟨uid, th, nt⟩ w = Except.error e →
        (create_user_with_preferences db uid em fn ln th nt).result = Except.error e)
    ∧ ((create_user_with_preferences db uid em fn ln th nt).result = Except.ok true →
        findUser (create_user_with_preferences db uid em fn ln th nt).db uid =
          some ⟨uid, em, fn, ln⟩
        ∧ findPref (create_user_with_preferences db uid em fn ln th nt).db uid =
          some ⟨uid, th, nt⟩)
    ∧ (findUser db uid = none →
        ∀ e, (create_user_with_preferences db uid em fn ln th nt).result = Except.error e →
        (get_user (create_user_with_preferences db uid em fn ln th nt).db uid).result =
          Except.ok none) := by
  by_cases hd1 : (db.users.any fun x => x.user_id == uid || x.email == em) = true
  · -- the User insert raises: full rollback, error re-raised
    have h1 : insertUser ⟨uid, em, fn, ln⟩ db =
        Except.error (DBError.integrityDuplicate uid) := by
      simp [insertUser, hd1]
    have hout : create_user_with_preferences db uid em fn ln th nt =
        ⟨Except.error (DBError.integrityDuplicate uid), db,
          [Event.connect connection_params_autocommit,
           Event.execute usersInsertSQL [Value.s uid, Value.s em, Value.s fn, Value.s ln],
           Event.rollback, Event.rollback, Event.close]⟩ := by
      simp [create_user_with_preferences, get_connection,
        create_user_with_preferences_body, Conn.fresh, h1]
    refine ⟨?_, ?_, ?_, ?_, ?_⟩
    · intro e he; rw [hout]
    · intro e he; rw [h1] at he; cases he; rw [hout]
    · intro w e hw; rw [h1] at hw; cases hw
    · intro hok; rw [hout] at hok; cases hok
    · intro hfu e he
      rw [hout]
      rw [(get_user_spec db uid).1, hfu]
  · have hd1f : (db.users.any fun x => x.user_id == uid || x.email == em) = false := by
      simpa using hd1
    have h1 : insertUser ⟨uid, em, fn, ln⟩ db =
        Except.ok { db with users := db.users ++ [⟨uid, em, fn, ln⟩] } := by
      simp [insertUser, hd1f]
    by_cases hd2 : (db.prefs.any fun x => x.user_id == uid) = true
    · -- the Preferences insert raises: full rollback, error re-raised
      have h2 : insertPref ⟨uid, th, nt⟩ { db with users := db.users ++ [⟨uid, em, fn, ln⟩] } =
          Except.error (DBError.integrityDuplicate uid) := by
        simp only [insertPref]
        rw [if_pos]
        exact hd2
      have hout : create_user_with_preferences db uid em fn ln th nt =
          ⟨Except.error (DBError.integrityDuplicate uid), db,
            [Event.connect connection_params_autocommit,
             Event.execute usersInsertSQL [Value.s uid, Value.s em, Value.s fn, Value.s ln],
             Event.execute prefsInsertSQL [Value.s uid, Value.s th, Value.b nt],
             Event.rollback, Event.rollback, Event.close]⟩ := by
        simp [create_user_with_preferences, get_connection,
          create_user_with_preferences_body, Conn.fresh, h1, h2]
      refine ⟨?_, ?_, ?_, ?_, ?_⟩
      · intro e he; rw [hout]
      · intro e he; rw [h1] at he; cases he
      · intro w e hw he2
        rw [h1] at hw; cases hw
        rw [h2] at he2; cases he2
        rw [hout]
      · intro hok; rw [hout] at hok; cases hok
      · intro hfu e he
        rw [hout]
        rw [(get_user_spec db uid).1, hfu]
    · have hd2f : (db.prefs.any fun x => x.user_id == uid) = false := by
        simpa using hd2
      have husers : (({ db with users := db.users ++ [⟨uid, em, fn, ln⟩] } : DB).users.any
          fun x => x.user_id == uid) = true := by
        simp [List.any_append]
      have h2 : insertPref ⟨uid, th, nt⟩ { db with users := db.users ++ [⟨uid, em, fn, ln⟩] } =
          Except.ok { db with
            users := db.users ++ [⟨uid, em, fn, ln⟩],
            prefs := db.prefs ++ [⟨uid, th, nt⟩] } := by
        simp only [insertPref]
        rw [if_neg, if_pos]
        · exact husers
        · simp [hd2f]
      have hout : create_user_with_preferences db uid em fn ln th nt =
          ⟨Except.ok true,
            { db with
              users := db.users ++ [⟨uid, em, fn, ln⟩],
              prefs := db.prefs ++ [⟨uid, th, nt⟩] },
            [Event.connect connection_params_autocommit,
             Event.execute usersInsertSQL [Value.s uid, Value.s em, Value.s fn, Value.s ln],
             Event.execute prefsInsertSQL [Value.s uid, Value.s th, Value.b nt],
             Event.commit, Event.close]⟩ := by
        simp [create_user_with_preferences, get_connection,
          create_user_with_preferences_body, Conn.fresh, h1, h2]
      refine ⟨?_, ?_, ?_, ?_, ?_⟩
      · intro e he; rw [hout] at he; cases he
      · intro e he; rw [h1] at he; cases he
      · intro w e hw he2
        rw [h1] at hw; cases hw
        rw [h2] at he2; cases he2
      · intro hok
        rw [hout]
        constructor
        · refine find_append_singleton _ _ _ ?_ (by simp)
          intro x hx
          have := List.any_eq_false.mp hd1f x hx
          simp at this
          simp [this.1]
        · refine find_append_singleton _ _ _ ?_ (by simp)
          intro x hx
          have := List.any_eq_false.mp hd2f x hx
          simpa using this
      · intro hfu e he; rw [hout] at he; cases he

/-- Witness for C1: on a state holding a stray preferences row for `u2`,
the preferences insert raises, the call re-raises the duplicate error, the
state is unchanged, and `get_user "u2"` afterwards returns not-found; on a
clean state the call succeeds and retains both rows. -/
theorem C1_transactional_witness :
    (create_user_with_preferences dbStray "u2" "e@x.com" "E" "F" "dark" false).db = dbStray
    ∧ (create_user_with_preferences dbStray "u2" "e@x.com" "E" "F" "dark" false).result =
        Except.error (DBError.integrityDuplicate "u2")
    ∧ (get_user (create_user_with_preferences dbStray "u2" "e@x.com" "E" "F" "dark" false).db
        "u2").result = Except.ok none
    ∧ findUser (create_user_with_preferences dbU1 "u3" "u3@x.com" "G" "H" "dark" true).db "u3" =
        some ⟨"u3", "u3@x.com", "G", "H"⟩
    ∧ findPref (create_user_with_preferences dbU1 "u3" "u3@x.com" "G" "H" "dark" true).db "u3" =
        some ⟨"u3", "dark", true⟩ := by
  have h := C1_transactional dbStray "u2" "e@x.com" "E" "F" "dark" false
  have hs := C1_transactional dbU1 "u3" "u3@x.com" "G" "H" "dark" true
  refine ⟨h.1 (DBError.integrityDuplicate "u2") (by decide), ?_, ?_, ?_, ?_⟩
  · exact h.2.2.1 ⟨[⟨"u2", "e@x.com", "E", "F"⟩], [], [⟨"u2", "light", true⟩]⟩
      (DBError.integrityDuplicate "u2") (by decide) (by decide)
  · exact h.2.2.2.2 (by decide) (DBError.integrityDuplicate "u2") (by decide)
  · exact (hs.2.2.2.1 (by decide)).1
  · exact (hs.2.2.2.1 (by decide)).2

/-- `execTexts` distributes over trace concatenation. -/
theorem execTexts_append (l1 l2 : List Event) :
    execTexts (l1 ++ l2) = execTexts l1 ++ execTexts l2 :=
  List.filterMap_append l1 l2 _

/-- A loop of executes of one statement contributes one copy of its text
per record. -/
theorem execTexts_map {B : Type} (sql : String) (prm : B → List Value) (rows : List B) :
    execTexts (rows.map fun r => Event.execute sql (prm r)) =
      List.replicate rows.length sql := by
  induction rows with
  | nil => rfl
  | cons r rs ih =>
    simp only [List.map_cons, execTexts, List.filterMap_cons] at ih ⊢
    rw [ih]
    rfl

/-- A successful run of the users insert loop appends exactly the seeded
rows to the `users` table, touches nothing else, and traces one execute
per record. -/
theorem insertAll_users_ok (rows : List UserRow) :
    ∀ w w2 evs, insertAll seedUsersSQL seedUserParams insertUser rows w = (Except.ok w2, evs) →
      w2.users = w.users ++ rows ∧ w2.activity = w.activity ∧ w2.prefs = w.prefs
      ∧ evs = rows.map fun r => Event.execute seedUsersSQL (seedUserParams r) := by
  induction rows with
  | nil =>
    intro w w2 evs h
    simp only [insertAll] at h
    cases h
    simp
  | cons r rs ih =>
    intro w w2 evs h
    simp only [insertAll] at h
    cases hi : insertUser r w with
    | error e =>
      simp only [hi] at h
      exact absurd h (by simp)
    | ok w1 =>
      simp only [hi] at h
      rcases hrest : insertAll seedUsersSQL seedUserParams insertUser rs w1 with ⟨res1, evs1⟩
      rw [hrest] at h
      injection h with h1 h2
      subst h1
      subst h2
      have hr := ih w1 w2 evs1 hrest
      have hw1 : w1.users = w.users ++ [r] ∧ w1.activity = w.activity ∧ w1.prefs = w.prefs := by
        simp only [insertUser] at hi
        by_cases hc : (w.users.any fun x => x.user_id == r.user_id || x.email == r.email) = true
        · rw [if_pos hc] at hi; cases hi
        · rw [if_neg hc] at hi
          cases hi
          simp
      refine ⟨?_, ?_, ?_, ?_⟩
      · rw [hr.1, hw1.1]
        simp
      · rw [hr.2.1, hw1.2.1]
      · rw [hr.2.2.1, hw1.2.2]
      · rw [List.map_cons, hr.2.2.2]

/-- A successful run of the activity insert loop adds one auto-numbered row
per seeded record, touches nothing else, and traces one execute per
record. -/
theorem insertAll_act_ok (rows : List SeedActivity) :
    ∀ w w2 evs,
      insertAll seedActivitySQL seedActParams insertActivity rows w = (Except.ok w2, evs) →
      w2.users = w.users ∧ w2.prefs = w.prefs
      ∧ w2.activity.length = w.activity.length + rows.length
      ∧ evs = rows.map fun r => Event.execute seedActivitySQL (seedActParams r) := by
  induction rows with
  | nil =>
    intro w w2 evs h
    simp only [insertAll] at h
    cases h
    simp
  | cons r rs ih =>
    intro w w2 evs h
    simp only [insertAll] at h
    cases hi : insertActivity r w with
    | error e =>
      simp only [hi] at h
      exact absurd h (by simp)
    | ok w1 =>
      simp only [hi] at h
      rcases hrest : insertAll seedActivitySQL seedActParams insertActivity rs w1 with ⟨res1, evs1⟩
      rw [hrest] at h
      injection h with h1 h2
      subst h1
      subst h2
      have hr := ih w1 w2 evs1 hrest
      have hw1 : w1.users = w.users ∧ w1.prefs = w.prefs
          ∧ w1.activity.length = w.activity.length + 1 := by
        simp only [insertActivity] at hi
        by_cases hc : (w.users.any fun x => x.user_id == r.user_id) = true
        · rw [if_pos hc] at hi
          cases hi
          simp
        · rw [if_neg hc] at hi
          cases hi
      refine ⟨?_, ?_, ?_, ?_⟩
      · rw [hr.1, hw1.1]
      · rw [hr.2.1, hw1.2.1]
      · rw [hr.2.2.1, hw1.2.2]
        simp
        omega
      · rw [List.map_cons, hr.2.2.2]

/-- A successful run of the preferences insert loop appends exactly the
seeded rows to the `preferences` table, touches nothing else, and traces
one execute per record. -/
theorem insertAll_prefs_ok (rows : List PrefRow) :
    ∀ w w2 evs, insertAll seedPrefsSQL seedPrefParams insertPref rows w = (Except.ok w2, evs) →
      w2.users = w.users ∧ w2.activity = w.activity ∧ w2.prefs = w.prefs ++ rows
      ∧ evs = rows.map fun r => Event.execute seedPrefsSQL (seedPrefParams r) := by
  induction rows with
  | nil =>
    intro w w2 evs h
    simp only [insertAll] at h
    cases h
    simp
  | cons r rs ih =>
    intro w w2 evs h
    simp only [insertAll] at h
    cases hi : insertPref r w with
    | error e =>
      simp only [hi] at h
      exact absurd h (by simp)
    | ok w1 =>
      simp only [hi] at h
      rcases hrest : insertAll seedPrefsSQL seedPrefParams insertPref rs w1 with ⟨res1, evs1⟩
      rw [hrest] at h
      injection h with h1 h2
      subst h1
      subst h2
      have hr := ih w1 w2 evs1 hrest
      have hw1 : w1.users = w.users ∧ w1.activity = w.activity
          ∧ w1.prefs = w.prefs ++ [r] := by
        simp only [insertPref] at hi
        by_cases hc1 : (w.prefs.any fun x => x.user_id == r.user_id) = true
        · rw [if_pos hc1] at hi
          cases hi
        · rw [if_neg hc1] at hi
          by_cases hc2 : (w.users.any fun x => x.user_id == r.user_id) = true
          · rw [if_pos hc2] at hi
            cases hi
            simp
          · rw [if_neg hc2] at hi
            cases hi
      refine ⟨?_, ?_, ?_, ?_⟩
      · rw [hr.1, hw1.1]
      · rw [hr.2.1, hw1.2.1]
      · rw [hr.2.2.1, hw1.2.2]
        simp
      · rw [List.map_cons, hr.2.2.2]

/-- Opening a connection adds no statement text. -/
theorem execTexts_connect (b : Bool) (l : List Event) :
    execTexts (Event.connect b :: l) = execTexts l := rfl

/-- C5: `load_seed_data` on a missing source re-raises the file-not-found
error before any connection or transaction is opened; on a readable source
it inserts the users collection, then activity, then preferences, inside
one transaction, so any insertion failure rolls back every prior insert of
the same call and propagates the error. -/
theorem C5_seed_loader (fs : String → Option SeedData) (db : DB) (fname : String) :
    (fs fname = none →
      load_seed_data fs db fname = ⟨Except.error (DBError.fileNotFound fname), db, []⟩)
    ∧ (∀ sd, fs fname = some sd →
        (∀ e, (load_seed_data fs db fname).result = Except.error e →
            (load_seed_data fs db fname).db = db)
        ∧ ((load_seed_data fs db fname).result = Except.ok () →
            (load_seed_data fs db fname).db.users = db.users ++ sd.users
            ∧ (load_seed_data fs db fname).db.prefs = db.prefs ++ sd.preferences
            ∧ (load_seed_data fs db fname).db.activity.length =
                db.activity.length + sd.activity.length
            ∧ execTexts (load_seed_data fs db fname).trace =
                List.replicate sd.users.length seedUsersSQL
                ++ List.replicate sd.activity.length seedActivitySQL
                ++ List.replicate sd.preferences.length seedPrefsSQL)) := by
  constructor
  · intro h
    simp [load_seed_data, h]
  · intro sd hsd
    have hld : load_seed_data fs db fname = get_connection db (load_seed_body sd) := by
      simp [load_seed_data, hsd]
    rw [hld]
    rcases h1 : insertAll seedUsersSQL seedUserParams insertUser sd.users db with ⟨res1, evs1⟩
    cases res1 with
    | error e1 =>
      have hbody : load_seed_body sd ⟨db, db⟩ = (Except.error e1, ⟨db, db⟩, evs1) := by
        simp [load_seed_body, Conn.fresh, h1]
      have hout : get_connection db (load_seed_body sd) =
          ⟨Except.error e1, db,
            Event.connect connection_params_autocommit ::
              evs1 ++ [Event.rollback, Event.close]⟩ := by
        simp [get_connection, Conn.fresh, hbody]
      constructor
      · intro e he; simp only [hout]
      · intro hok; simp only [hout] at hok; cases hok
    | ok w1 =>
      rcases h2 : insertAll seedActivitySQL seedActParams insertActivity sd.activity w1
        with ⟨res2, evs2⟩
      cases res2 with
      | error e2 =>
        have hbody : load_seed_body sd ⟨db, db⟩ =
            (Except.error e2, ⟨db, db⟩, evs1 ++ evs2) := by
          simp [load_seed_body, Conn.fresh, h1, h2]
        have hout : get_connection db (load_seed_body sd) =
            ⟨Except.error e2, db,
              Event.connect connection_params_autocommit ::
                (evs1 ++ evs2) ++ [Event.rollback, Event.close]⟩ := by
          simp [get_connection, Conn.fresh, hbody]
        constructor
        · intro e he; simp only [hout]
        · intro hok; simp only [hout] at hok; cases hok
      | ok w2 =>
        rcases h3 : insertAll seedPrefsSQL seedPrefParams insertPref sd.preferences w2
          with ⟨res3, evs3⟩
        cases res3 with
        | error e3 =>
          have hbody : load_seed_body sd ⟨db, db⟩ =
              (Except.error e3, ⟨db, db⟩, evs1 ++ evs2 ++ evs3) := by
            simp [load_seed_body, Conn.fresh, h1, h2, h3]
          have hout : get_connection db (load_seed_body sd) =
              ⟨Except.error e3, db,
                Event.connect connection_params_autocommit ::
                  (evs1 ++ evs2 ++ evs3) ++ [Event.rollback, Event.close]⟩ := by
            simp [get_connection, Conn.fresh, hbody]
          constructor
          · intro e he; simp only [hout]
          · intro hok; simp only [hout] at hok; cases hok
        | ok w3 =>
          have hbody : load_seed_body sd ⟨db, db⟩ =
              (Except.ok (), ⟨w3, w3⟩, evs1 ++ evs2 ++ evs3 ++ [Event.commit]) := by
            simp [load_seed_body, Conn.fresh, h1, h2, h3]
          have hout : get_connection db (load_seed_body sd) =
              ⟨Except.ok (), w3,
                Event.connect connection_params_autocommit ::
                  (evs1 ++ evs2 ++ evs3 ++ [Event.commit]) ++ [Event.close]⟩ := by
            simp [get_connection, Conn.fresh, hbody]
          have hu := insertAll_users_ok sd.users db w1 evs1 h1
          have ha := insertAll_act_ok sd.activity w1 w2 evs2 h2
          have hp := insertAll_prefs_ok sd.preferences w2 w3 evs3 h3
          constructor
          · intro e he; simp only [hout] at he; cases he
          · intro _
            simp only [hout]
            have hcm : execTexts [Event.commit] = [] := rfl
            have hcl : execTexts [Event.close] = [] := rfl
            refine ⟨?_, ?_, ?_, ?_⟩
            · rw [hp.1, ha.1, hu.1]
            · rw [hp.2.2.1, ha.2.1, hu.2.2.1]
            · rw [hp.2.1, ha.2.2.1, hu.2.1]
            · rw [execTexts_append, hcl, List.append_nil, execTexts_connect,
                execTexts_append, hcm, List.append_nil, execTexts_append, execTexts_append,
                hu.2.2.2, ha.2.2.2, hp.2.2.2, execTexts_map, execTexts_map, execTexts_map]

/-- Witness for C5: a missing file aborts with no trace; the demo seed
document loads its three collections in order inside one transaction; a
seed document with a duplicated user fails and leaves the state exactly as
before. -/
theorem C5_seed_loader_witness :
    load_seed_data fsDemo dbEmpty "nope.json" =
      ⟨Except.error (DBError.fileNotFound "nope.json"), dbEmpty, []⟩
    ∧ (load_seed_data fsDemo dbEmpty "seed_data.json").db.users = [⟨"u1", "u1@x.com", "A", "B"⟩]
    ∧ (load_seed_data fsDemo dbEmpty "seed_data.json").db.prefs = [⟨"u1", "dark", false⟩]
    ∧ (load_seed_data fsDemo dbEmpty "seed_data.json").db.activity.length = 1
    ∧ execTexts (load_seed_data fsDemo dbEmpty "seed_data.json").trace =
        [seedUsersSQL, seedActivitySQL, seedPrefsSQL]
    ∧ (load_seed_data fsDup dbEmpty "seed_data.json").db = dbEmpty := by
  have hg := ((C5_seed_loader fsDemo dbEmpty "seed_data.json").2 sdGood (by decide)).2 (by decide)
  refine ⟨(C5_seed_loader fsDemo dbEmpty "nope.json").1 (by decide),
    hg.1.trans (by decide), hg.2.1.trans (by decide), hg.2.2.1.trans (by decide),
    hg.2.2.2.trans (by decide), ?_⟩
  exact ((C5_seed_loader fsDup dbEmpty "seed_data.json").2 sdDup (by decide)).1
    (DBError.integrityDuplicate "u1") (by decide)

/-- The fueled LIKE matcher is independent of the fuel once the fuel
exceeds the combined length of pattern and text. -/
theorem likeF_mono : ∀ f1 f2 : Nat, ∀ p ts : List Char,
    p.length + ts.length < f1 → p.length + ts.length < f2 →
    likeF f1 p ts = likeF f2 p ts := by
  intro f1
  induction f1 with
  | zero => intro f2 p ts h1 h2; omega
  | succ f ih =>
    intro f2 p ts h1 h2
    cases f2 with
    | zero => omega
    | succ g =>
      cases p with
      | nil => rfl
      | cons c ps =>
        by_cases hc : c = '%'
        · subst hc
          cases ts with
          | nil =>
            show likeF f ps [] = likeF g ps []
            exact ih g ps []
              (by simp only [List.length_cons, List.length_nil] at h1 ⊢; omega)
              (by simp only [List.length_cons, List.length_nil] at h2 ⊢; omega)
          | cons t ts2 =>
            show (likeF f ps (t :: ts2) || likeF f ('%' :: ps) ts2) =
              (likeF g ps (t :: ts2) || likeF g ('%' :: ps) ts2)
            rw [ih g ps (t :: ts2)
                (by simp only [List.length_cons] at h1 ⊢; omega)
                (by simp only [List.length_cons] at h2 ⊢; omega),
              ih g ('%' :: ps) ts2
                (by simp only [List.length_cons] at h1 ⊢; omega)
                (by simp only [List.length_cons] at h2 ⊢; omega)]
        · cases ts with
          | nil =>
            have e1 : likeF (f + 1) (c :: ps) [] =
                if c = '%' then likeF f ps [] else false := rfl
            have e2 : likeF (g + 1) (c :: ps) [] =
                if c = '%' then likeF g ps [] else false := rfl
            rw [e1, e2, if_neg hc, if_neg hc]
          | cons t ts2 =>
            have e1 : likeF (f + 1) (c :: ps) (t :: ts2) =
                if c = '%' then (likeF f ps (t :: ts2) || likeF f (c :: ps) ts2)
                else ((if c = '_' then true else c == t) && likeF f ps ts2) := rfl
            have e2 : likeF (g + 1) (c :: ps) (t :: ts2) =
                if c = '%' then (likeF g ps (t :: ts2) || likeF g (c :: ps) ts2)
                else ((if c = '_' then true else c == t) && likeF g ps ts2) := rfl
            rw [e1, e2, if_neg hc, if_neg hc,
              ih g ps ts2
                (by simp only [List.length_cons] at h1 ⊢; omega)
                (by simp only [List.length_cons] at h2 ⊢; omega)]

/-- `likeM` evaluated through any sufficient fuel. -/
theorem likeM_eq_fuel (f : Nat) (p ts : List Char) (h : p.length + ts.length < f) :
    likeM p ts = likeF f p ts :=
  likeF_mono (p.length + ts.length + 1) f p ts (by omega) h

/-- LIKE equation: the empty pattern matches only the empty text. -/
theorem likeM_nil (ts : List Char) : likeM [] ts = ts.isEmpty := rfl

/-- LIKE equation: a leading `%` against the empty text. -/
theorem likeM_pct_nil (ps : List Char) : likeM ('%' :: ps) [] = likeM ps [] := by
  simp only [likeM]
  have e1 : likeF (('%' :: ps).length + ([] : List Char).length + 1) ('%' :: ps) [] =
      likeF (('%' :: ps).length + ([] : List Char).length) ps [] := rfl
  rw [e1]
  exact likeF_mono _ _ ps []
    (by simp only [List.length_cons, List.length_nil]; omega)
    (by simp only [List.length_cons, List.length_nil]; omega)

/-- LIKE equation: a leading `%` either matches nothing or absorbs one text
character. -/
theorem likeM_pct_cons (ps ts : List Char) (t : Char) :
    likeM ('%' :: ps) (t :: ts) = (likeM ps (t :: ts) || likeM ('%' :: ps) ts) := by
  simp only [likeM]
  have e1 : likeF (('%' :: ps).length + (t :: ts).length + 1) ('%' :: ps) (t :: ts) =
      (likeF (('%' :: ps).length + (t :: ts).length) ps (t :: ts)
        || likeF (('%' :: ps).length + (t :: ts).length) ('%' :: ps) ts) := rfl
  rw [e1,
    likeF_mono (('%' :: ps).length + (t :: ts).length) (ps.length + (t :: ts).length + 1)
      ps (t :: ts)
      (by first | omega | (simp only [List.length_cons]; omega))
      (by first | omega | (simp only [List.length_cons]; omega)),
    likeF_mono (('%' :: ps).length + (t :: ts).length) (('%' :: ps).length + ts.length + 1)
      ('%' :: ps) ts
      (by first | omega | (simp only [List.length_cons]; omega))
      (by first | omega | (simp only [List.length_cons]; omega))]

/-- LIKE equation: a literal or `_` pattern head never matches empty
text. -/
theorem likeM_chr_nil (c : Char) (ps : List Char) (hc : ¬ c = '%') :
    likeM (c :: ps) [] = false := by
  simp only [likeM]
  have e1 : likeF ((c :: ps).length + ([] : List Char).length + 1) (c :: ps) [] =
      if c = '%' then likeF ((c :: ps).length + ([] : List Char).length) ps [] else false := rfl
  rw [e1, if_neg hc]

/-- LIKE equation: a literal or `_` pattern head consumes exactly one text
character. -/
theorem likeM_chr_cons (c t : Char) (ps ts : List Char) (hc : ¬ c = '%') :
    likeM (c :: ps) (t :: ts) =
      ((if c = '_' then true else c == t) && likeM ps ts) := by
  simp only [likeM]
  have e1 : likeF ((c :: ps).length + (t :: ts).length + 1) (c :: ps) (t :: ts) =
      if c = '%' then
        (likeF ((c :: ps).length + (t :: ts).length) ps (t :: ts)
          || likeF ((c :: ps).length + (t :: ts).length) (c :: ps) ts)
      else ((if c = '_' then true else c == t)
        && likeF ((c :: ps).length + (t :: ts).length) ps ts) := rfl
  rw [e1, if_neg hc,
    likeF_mono ((c :: ps).length + (t :: ts).length) (ps.length + ts.length + 1) ps ts
      (by first | omega | (simp only [List.length_cons]; omega))
      (by first | omega | (simp only [List.length_cons]; omega))]

/-- A `%` may match the empty run: any match of the rest extends under a
leading `%`. -/
theorem likeM_pct_intro (ps ts : List Char) (h : likeM ps ts = true) :
    likeM ('%' :: ps) ts = true := by
  cases ts with
  | nil => rw [likeM_pct_nil]; exact h
  | cons t ts2 => rw [likeM_pct_cons]; simp [h]

/-- A leading `%` absorbs any prefix of the text. -/
theorem likeM_pct_skip (ps : List Char) : ∀ u ts : List Char,
    likeM ('%' :: ps) ts = true → likeM ('%' :: ps) (u ++ ts) = true := by
  intro u
  induction u with
  | nil => intro ts h; simpa using h
  | cons a u2 ih =>
    intro ts h
    rw [List.cons_append, likeM_pct_cons]
    simp [ih ts h]

/-- The pattern `%` alone matches every text. -/
theorem likeM_pct_all (v : List Char) : likeM ['%'] v = true := by
  induction v with
  | nil => rfl
  | cons t v2 ih =>
    rw [likeM_pct_cons]
    simp [ih]

/-- Every pattern matches itself (each metacharacter can match its own
literal occurrence). -/
theorem likeM_self (p : List Char) : likeM p p = true := by
  induction p with
  | nil => rfl
  | cons c ps ih =>
    by_cases hc : c = '%'
    · subst hc
      rw [likeM_pct_cons]
      have h2 := likeM_pct_intro ps ps ih
      simp [h2]
    · rw [likeM_chr_cons _ _ _ _ hc]
      by_cases h2 : c = '_' <;> simp [h2, ih]

/-- LIKE matches distribute over concatenation of pattern and text. -/
theorem likeM_append : ∀ n : Nat, ∀ p t : List Char, p.length + t.length ≤ n →
    likeM p t = true → ∀ q v : List Char, likeM q v = true →
    likeM (p ++ q) (t ++ v) = true := by
  intro n
  induction n with
  | zero =>
    intro p t hle hpt q v hqv
    cases p with
    | cons c ps => simp at hle
    | nil =>
      cases t with
      | cons a ts => simp at hle
      | nil => simpa using hqv
  | succ n ih =>
    intro p t hle hpt q v hqv
    cases p with
    | nil =>
      rw [likeM_nil] at hpt
      have ht : t = [] := List.isEmpty_iff.mp hpt
      subst ht
      simpa using hqv
    | cons c ps =>
      by_cases hc : c = '%'
      · subst hc
        cases t with
        | nil =>
          rw [likeM_pct_nil] at hpt
          have h2 := ih ps [] (by simp at hle ⊢; omega) hpt q v hqv
          rw [List.cons_append, List.nil_append]
          exact likeM_pct_intro _ _ (by simpa using h2)
        | cons a ts =>
          rw [likeM_pct_cons] at hpt
          rw [Bool.or_eq_true] at hpt
          rcases hpt with h | h
          · have h2 := ih ps (a :: ts) (by simp at hle ⊢; omega) h q v hqv
            rw [List.cons_append]
            exact likeM_pct_intro _ _ h2
          · have h2 := ih ('%' :: ps) ts (by simp at hle ⊢; omega) h q v hqv
            rw [List.cons_append, List.cons_append, likeM_pct_cons]
            rw [List.cons_append] at h2
            simp [h2]
      · cases t with
        | nil =>
          rw [likeM_chr_nil _ _ hc] at hpt
          cases hpt
        | cons a ts =>
          rw [likeM_chr_cons _ _ _ _ hc] at hpt
          rw [Bool.and_eq_true] at hpt
          obtain ⟨hhead, htail⟩ := hpt
          have h2 := ih ps ts (by simp at hle ⊢; omega) htail q v hqv
          rw [List.cons_append, List.cons_append, likeM_chr_cons _ _ _ _ hc]
          simp [hhead, h2]

/-- A successful prefix test yields a decomposition. -/
theorem pfx_decomp : ∀ p s : List Char, pfx p s = true → ∃ v, s = p ++ v := by
  intro p
  induction p with
  | nil => intro s h; exact ⟨s, rfl⟩
  | cons a as2 ihp =>
    intro s h
    cases s with
    | nil => simp [pfx] at h
    | cons b bs =>
      simp only [pfx, Bool.and_eq_true] at h
      obtain ⟨hab, hrest⟩ := h
      obtain ⟨v, hv⟩ := ihp bs hrest
      have hab2 : a = b := by simpa using hab
      exact ⟨v, by rw [List.cons_append, ← hv, hab2]⟩

/-- A successful substring test yields a decomposition. -/
theorem subl_decomp : ∀ s p : List Char, subl p s = true → ∃ u v, s = u ++ p ++ v := by
  intro s
  induction s with
  | nil =>
    intro p h
    simp only [subl] at h
    obtain ⟨v, hv⟩ := pfx_decomp p [] h
    exact ⟨[], v, by simpa using hv⟩
  | cons b s2 ih =>
    intro p h
    simp only [subl, Bool.or_eq_true] at h
    rcases h with h | h
    · obtain ⟨v, hv⟩ := pfx_decomp p (b :: s2) h
      exact ⟨[], v, by simpa using hv⟩
    · obtain ⟨u, v, huv⟩ := ih p h
      exact ⟨b :: u, v, by simp [huv]⟩

/-- Any text containing the caller's substring literally is matched by the
unescaped wrapped pattern (each metacharacter can match itself). -/
theorem likeM_contains (p s : List Char) (h : subl p s = true) :
    likeM ('%' :: (p ++ ['%'])) s = true := by
  obtain ⟨u, v, huv⟩ := subl_decomp s p h
  subst huv
  have h1 : likeM (p ++ ['%']) (p ++ v) = true :=
    likeM_append (p.length + p.length) p p (by omega) (likeM_self p) ['%'] v (likeM_pct_all v)
  have h2 : likeM ('%' :: (p ++ ['%'])) (p ++ v) = true := likeM_pct_intro _ _ h1
  have h3 := likeM_pct_skip (p ++ ['%']) u (p ++ v) h2
  simpa [List.append_assoc] using h3

/-- C10: `search_users_by_email` wraps the caller substring in `%`
wildcards without escaping `%` or `_`, so metacharacters act as wildcards:
the result set always contains every user whose email contains the literal
substring (a superset), and for the input `a_c` it also contains a user
whose email merely matches `a`,any-character,`c` — here `abc@example.com`,
which does not contain the literal text `a_c`. -/
theorem C10_wildcards (db : DB) (pat : String) (user : UserRow) (hu : user ∈ db.users) :
    (subl pat.data user.email.data = true → user ∈ searchRows db pat)
    ∧ (search_users_by_email db pat).result = Except.ok (searchRows db pat)
    ∧ (pat = "a_c" → user.email = "abc@example.com" →
        user ∈ searchRows db pat ∧ subl pat.data user.email.data = false) := by
  refine ⟨?_, ?_, ?_⟩
  · intro h
    have hd : ("%" ++ pat ++ "%").data = '%' :: (pat.data ++ ['%']) := by
      rw [String.data_append, String.data_append]
      rfl
    have hl : likeM ("%" ++ pat ++ "%").data user.email.data = true := by
      rw [hd]
      exact likeM_contains _ _ h
    exact List.mem_filter.mpr ⟨hu, hl⟩
  · simp [search_users_by_email, get_connection, search_users_by_email_body, Conn.fresh,
      searchRows]
  · intro hp he
    subst hp
    refine ⟨List.mem_filter.mpr ⟨hu, ?_⟩, ?_⟩
    · rw [he]
      decide
    · rw [he]
      decide

/-- Witness for C10: the sole user of `dbAbc` is returned both for a
literally contained substring (`b`) and for the wildcard pattern `a_c`,
although its email does not contain `a_c` literally. -/
theorem C10_wildcards_witness :
    ((⟨"ua", "abc@example.com", "A", "B"⟩ : UserRow) ∈ searchRows dbAbc "a_c"
      ∧ subl ("a_c" : String).data ("abc@example.com" : String).data = false)
    ∧ (⟨"ua", "abc@example.com", "A", "B"⟩ : UserRow) ∈ searchRows dbAbc "b" := by
  have h1 := C10_wildcards dbAbc "a_c" ⟨"ua", "abc@example.com", "A", "B"⟩ (by decide)
  have h2 := C10_wildcards dbAbc "b" ⟨"ua", "abc@example.com", "A", "B"⟩ (by decide)
  exact ⟨h1.2.2 rfl rfl, h2.1 (by decide)⟩
